import Mathlib

/-!
Verification development for the nanotrappy curve-analysis and parameter-sweep
engine (`nanotrappy/utils/viz.py`).

The embedding models the numeric state of the Python code over exact rationals:
every float that flows through the analyzed routines is either a finite value
(modelled by `ℚ`) or NaN (the `RR` type below).  Python exceptions are modelled
by `Except PyErr`.  The scipy routine `find_peaks` (plateau-aware local-maxima
detection, the distance filter, and prominence computation) is translated
directly from scipy's `_local_maxima_1d`, `_select_by_peak_distance` and
`_peak_prominences`, since the spec's claims hinge on its exact behaviour.

The standard `Rat` arithmetic operations in this toolchain are `@[irreducible]`
and do not evaluate inside the kernel, so the embedding computes with the
kernel-reducible wrappers `qadd`, `qsub`, `qmul`, `qdiv`, `qneg`, `qabs`
defined below; each is proved equal to the corresponding standard operation.
-/

namespace NanoViz

/-- Kernel-computable addition on `ℚ` (equal to `a + b`, see `qadd_eq`). -/
def qadd (a b : ℚ) : ℚ := mkRat (a.num * b.den + b.num * a.den) (a.den * b.den)

/-- Kernel-computable negation on `ℚ` (equal to `-a`, see `qneg_eq`). -/
def qneg (a : ℚ) : ℚ := mkRat (-a.num) a.den

/-- Kernel-computable subtraction on `ℚ` (equal to `a - b`, see `qsub_eq`). -/
def qsub (a b : ℚ) : ℚ := mkRat (a.num * b.den - b.num * a.den) (a.den * b.den)

/-- Kernel-computable multiplication on `ℚ` (equal to `a * b`, see `qmul_eq`). -/
def qmul (a b : ℚ) : ℚ := mkRat (a.num * b.num) (a.den * b.den)

/-- Kernel-computable inverse on `ℚ` (equal to `a⁻¹`, see `qinv_eq`). -/
def qinv (a : ℚ) : ℚ := Rat.divInt a.den a.num

/-- Kernel-computable division on `ℚ` (equal to `a / b`, see `qdiv_eq`). -/
def qdiv (a b : ℚ) : ℚ := qmul a (qinv b)

/-- Kernel-computable absolute value on `ℚ` (equal to `|a|`, see `qabs_eq`). -/
def qabs (a : ℚ) : ℚ := mkRat a.num.natAbs a.den

/-- A Python float as the analyzed code observes it: NaN or a finite value
(modelled exactly by a rational). -/
inductive RR where
  | nan : RR
  | val (q : ℚ) : RR
deriving DecidableEq

/-- `np.isnan`. -/
def RR.isNan : RR → Bool
  | .nan => true
  | .val _ => false

/-- Multiplication of a float by a finite scalar; NaN propagates. -/
def RR.mulQ : RR → ℚ → RR
  | .nan, _ => .nan
  | .val q, c => .val (qmul q c)

/-- The finite value held by a float; callers only use this after an
`isNan` guard, so the value returned for NaN is never observed. -/
def RR.toQ : RR → ℚ
  | .nan => 0
  | .val q => q

/-- The Python exceptions that the analyzed routines can raise. -/
inductive PyErr where
  | typeError : PyErr
  | valueError : PyErr
  | linAlgError : PyErr
deriving DecidableEq

/-- `np.argmin`: index of the first occurrence of the minimal value
(`0` on the empty list, where numpy would raise). -/
def argminIdx : List ℚ → ℕ
  | [] => 0
  | [_] => 0
  | a :: b :: rest =>
    let j := argminIdx (b :: rest)
    if a ≤ (b :: rest).getD j 0 then 0 else j + 1

/-- Length of the plateau of samples equal to `v` starting at `i` and staying
below index `iMax` (the inner `while` of scipy's `_local_maxima_1d`).  `fuel`
bounds the recursion; callers pass at least `iMax - i`. -/
def plateauLen (x : List ℚ) (v : ℚ) (iMax : ℕ) : ℕ → ℕ → ℕ
  | 0, _ => 0
  | fuel + 1, i =>
    if i < iMax then
      if x.getD i 0 = v then plateauLen x v iMax fuel (i + 1) + 1 else 0
    else 0

/-- Main scan of scipy's `_local_maxima_1d`: for `i` in `[1, iMax)`, a sample
(or plateau) strictly above both neighbours is a local maximum; its recorded
index is the plateau midpoint.  `fuel` bounds the recursion; callers pass at
least `iMax`. -/
def lmAux (x : List ℚ) (iMax : ℕ) : ℕ → ℕ → List ℕ
  | 0, _ => []
  | fuel + 1, i =>
    if i < iMax then
      if x.getD (i - 1) 0 < x.getD i 0 then
        -- i_ahead: first index after the plateau of samples equal to x[i]
        let ia := i + 1 + plateauLen x (x.getD i 0) iMax fuel (i + 1)
        if x.getD ia 0 < x.getD i 0 then
          (i + (ia - 1)) / 2 :: lmAux x iMax fuel (ia + 1)
        else lmAux x iMax fuel (i + 1)
      else lmAux x iMax fuel (i + 1)
    else []

/-- scipy `_local_maxima_1d`: midpoints of all strict local maxima of `x`,
in increasing order.  Samples at the two boundary indices are never maxima. -/
def localMaxima1d (x : List ℚ) : List ℕ := lmAux x (x.length - 1) x.length 1

/-- Stable insertion of index `i` into an index list sorted by `key`
(ascending); on equal keys `i` is placed before the indices already present,
which are all larger than `i` in `argsortQ` below. -/
def insertByKey (key : ℕ → ℚ) (i : ℕ) : List ℕ → List ℕ
  | [] => [i]
  | j :: rest => if key j < key i then j :: insertByKey key i rest else i :: j :: rest

/-- Stable ascending argsort of a list of priorities (`np.argsort`; scipy's
use in `_select_by_peak_distance` does not fix the order of equal priorities,
the embedding uses the stable order). -/
def argsortQ (l : List ℚ) : List ℕ :=
  (List.range l.length).foldr (insertByKey (fun j => l.getD j 0)) []

/-- Leftward removal sweep of `_select_by_peak_distance`: starting just below
position `k`, clear `keep` while the peak is closer than `distance` to the
peak at `pj`.  Peaks are in increasing order, so stopping at the first far
peak is the `while` loop of the scipy source. -/
def zeroLeftFrom (peaks : List ℕ) (distance pj : ℤ) : ℕ → List Bool → List Bool
  | 0, keep => keep
  | k + 1, keep =>
    if pj - (peaks.getD k 0 : ℤ) < distance then
      zeroLeftFrom peaks distance pj k (keep.set k false)
    else keep

/-- Rightward removal sweep of `_select_by_peak_distance`; `fuel` is the
number of positions remaining to the right. -/
def zeroRightFrom (peaks : List ℕ) (distance pj : ℤ) : ℕ → ℕ → List Bool → List Bool
  | 0, _, keep => keep
  | fuel + 1, k, keep =>
    if (peaks.getD k 0 : ℤ) - pj < distance then
      zeroRightFrom peaks distance pj fuel (k + 1) (keep.set k false)
    else keep

/-- Body of `_select_by_peak_distance`: visit positions from highest to lowest
priority; a position still kept removes all of its neighbours closer than
`distance`. -/
def spdGo (peaks : List ℕ) (distance : ℤ) : List ℕ → List Bool → List Bool
  | [], keep => keep
  | j :: order, keep =>
    if keep.getD j true then
      spdGo peaks distance order
        (zeroRightFrom peaks distance (peaks.getD j 0) (peaks.length - (j + 1)) (j + 1)
          (zeroLeftFrom peaks distance (peaks.getD j 0) j keep))
    else spdGo peaks distance order keep

/-- scipy `_select_by_peak_distance`: the keep-mask after removing, from the
highest-priority peaks downward, every kept peak's neighbours closer than
`distance` samples. -/
def selectByPeakDistance (peaks : List ℕ) (priority : List ℚ) (distance : ℤ) : List Bool :=
  spdGo peaks distance (argsortQ priority).reverse (List.replicate peaks.length true)

/-- Left half of scipy `_peak_prominences`: walk left from the peak while the
signal stays `≤ x[peak]`, tracking the minimum value and the index of its
first occurrence in walk order (the left base). -/
def promLeftGo (x : List ℚ) (xp : ℚ) : ℕ → ℚ → ℕ → ℚ × ℕ
  | 0, m, b =>
    if x.getD 0 0 ≤ xp then
      if x.getD 0 0 < m then (x.getD 0 0, 0) else (m, b)
    else (m, b)
  | i + 1, m, b =>
    if x.getD (i + 1) 0 ≤ xp then
      if x.getD (i + 1) 0 < m then promLeftGo x xp i (x.getD (i + 1) 0) (i + 1)
      else promLeftGo x xp i m b
    else (m, b)

/-- Right half of scipy `_peak_prominences`; `fuel` counts the samples from
the current index up to the last index of the signal (inclusive). -/
def promRightGo (x : List ℚ) (xp : ℚ) : ℕ → ℕ → ℚ → ℕ → ℚ × ℕ
  | 0, _, m, b => (m, b)
  | fuel + 1, i, m, b =>
    if x.getD i 0 ≤ xp then
      if x.getD i 0 < m then promRightGo x xp fuel (i + 1) (x.getD i 0) i
      else promRightGo x xp fuel (i + 1) m b
    else (m, b)

/-- One detected peak of a signal together with the properties that scipy's
`find_peaks` reports for it. -/
structure PeakInfo where
  peak : ℕ
  prominence : ℚ
  leftBase : ℕ
  rightBase : ℕ
deriving DecidableEq

instance : Inhabited PeakInfo := ⟨⟨0, 0, 0, 0⟩⟩

/-- scipy `_peak_prominences` for a single peak `p` of signal `x` (with
unrestricted window): prominence is the peak height minus the larger of the
two base minima. -/
def peakProm (x : List ℚ) (p : ℕ) : PeakInfo :=
  let xp := x.getD p 0
  let iMax := x.length - 1
  let lft := promLeftGo x xp p xp p
  let rgt := promRightGo x xp (iMax + 1 - p) p xp p
  ⟨p, qsub xp (max lft.1 rgt.1), lft.2, rgt.2⟩

/-- Keep the elements of `l` whose flag in `keep` is `true` (`peaks[keep]`). -/
def filterKeep {α : Type} (l : List α) (keep : List Bool) : List α :=
  (l.zip keep).filterMap (fun pk => if pk.2 then some pk.1 else none)

/-- `find_peaks(x, distance=10, prominence=5e-4)` as called by
`get_min_trap` on the negated trap: plateau-aware local maxima, then the
distance filter (priority = peak height), then the prominence filter.  The
float literal `5e-4` denotes exactly `1/2000` in this exact-arithmetic model.
Returns each surviving peak with its prominence and bases. -/
def findPeaksDistProm (x : List ℚ) : List PeakInfo :=
  let mids := localMaxima1d x
  let keep := selectByPeakDistance mids (mids.map (fun p => x.getD p 0)) 10
  let peaks1 := filterKeep mids keep
  (peaks1.map (fun p => peakProm x p)).filter (fun c => mkRat 1 2000 ≤ c.prominence)

/-- `find_peaks(x, height=h)` as called by `get_coord_trap_outside_structure`
on the negated proximity curve: plateau-aware local maxima of height at least
`h` (no distance or prominence filtering). -/
def findPeaksHeight (x : List ℚ) (h : ℚ) : List ℕ :=
  (localMaxima1d x).filter (fun p => h ≤ x.getD p 0)

/-- Result of `Viz.get_min_trap` on a 1-D curve: either the no-minimum
sentinel (Python returns `(nan, nan, 0, 0, nan)`), or an accepted minimum
with its index, axis position, depth (curve value), barrier-height field and
left-base index (Python returns the corresponding 5-tuple). -/
inductive MinTrap where
  | noMin : MinTrap
  | found (idx : ℕ) (pos depth height : ℚ) (leftBase : ℕ) : MinTrap
deriving DecidableEq

/-- `Viz.get_min_trap(y_outside, trap_outside)`: run
`find_peaks(-trap_outside, distance=10, prominence=5e-4)`; with no detected
minimum (or a single one at index `≤ 5`, too close to the edge) report the
sentinel; with a single minimum at index `> 5` accept it; with several, pick
the one whose curve value is lowest (`np.argmin`: first occurrence on ties).
The returned height field is `-prominences[sel]`, and the returned left-base
field is `left_bases[0]` — both taken verbatim from the source.  (The Python
parameter `edge_no_surface` is unused in the body and omitted; the `ndim >= 3`
`TypeError` guard cannot fire on the 1-D curves this embedding types.) -/
def get_min_trap (y_outside trap_outside : List ℚ) : MinTrap :=
  match findPeaksDistProm (trap_outside.map qneg) with
  | [] => .noMin
  | [c] =>
    if 5 < c.peak then
      .found c.peak (y_outside.getD c.peak 0) (trap_outside.getD c.peak 0)
        (qneg c.prominence) c.leftBase
    else .noMin
  | c0 :: c1 :: rest =>
    let cs := c0 :: c1 :: rest
    let arg := argminIdx (cs.map (fun c => trap_outside.getD c.peak 0))
    let sel := cs.getD arg c0
    .found sel.peak (y_outside.getD sel.peak 0) (trap_outside.getD sel.peak 0)
      (qneg sel.prominence) c0.leftBase

/-- The literal Python return value of `get_min_trap`: a 5-tuple. -/
def tuple5 : MinTrap → List RR
  | .noMin => [.nan, .nan, .val 0, .val 0, .nan]
  | .found i p d h lb => [.val i, .val p, .val d, .val h, .val lb]

/-- Python tuple unpacking into four targets (`a, b, c, d = t`): succeeds
exactly on a 4-tuple, otherwise raises `ValueError`. -/
def unpack4 (t : List RR) : Except PyErr (RR × RR × RR × RR) :=
  match t with
  | [a, b, c, d] => .ok (a, b, c, d)
  | _ => .error .valueError

/-- `np.poly1d(coeffs)` evaluation; coefficients are ordered from the highest
degree downward, as `np.polyfit` returns them. -/
def polyEval (coeffs : List ℚ) (v : ℚ) : ℚ :=
  coeffs.foldl (fun acc c => qadd (qmul acc v) c) 0

/-- `np.gradient(f, x)` with a coordinate array and default `edge_order=1`:
second-order central differences in the interior, one-sided differences at
the two ends.  (For `f` of length `< 2` numpy raises; the analyzed call sites
only reach this with length `≥ 2`, where the formula below is exact.) -/
def npGradient (f x : List ℚ) : List ℚ :=
  let n := f.length
  (List.range n).map (fun i =>
    if i = 0 then
      qdiv (qsub (f.getD 1 0) (f.getD 0 0)) (qsub (x.getD 1 0) (x.getD 0 0))
    else if i = n - 1 then
      qdiv (qsub (f.getD (n - 1) 0) (f.getD (n - 2) 0))
        (qsub (x.getD (n - 1) 0) (x.getD (n - 2) 0))
    else
      let dx1 := qsub (x.getD i 0) (x.getD (i - 1) 0)
      let dx2 := qsub (x.getD (i + 1) 0) (x.getD i 0)
      qadd
        (qadd (qmul (qneg (qdiv dx2 (qmul dx1 (qadd dx1 dx2)))) (f.getD (i - 1) 0))
          (qmul (qdiv (qsub dx2 dx1) (qmul dx1 dx2)) (f.getD i 0)))
        (qmul (qdiv dx1 (qmul dx2 (qadd dx1 dx2))) (f.getD (i + 1) 0)))

/-- The external numeric collaborators of the analyzed routines: `np.polyfit`
(a least-squares routine that can raise `LinAlgError`), `np.sqrt` (NaN on
negative input), and the physical conversion constants `kB`, `mK`, `kHz`, the
particle mass and the float value of `1/(2*pi)` — all supplied to the core as
plain numbers per the spec's external-interface section. -/
structure NumEnv where
  polyfit : List ℚ → List ℚ → ℕ → Except PyErr (List ℚ)
  sqrtF : ℚ → RR
  kB : ℚ
  mK : ℚ
  kHz : ℚ
  mass : ℚ
  twoPiInv : ℚ

/-- `Viz.get_trapfreq(y_outside, trap_outside)`: unpack the result of
`get_min_trap` into four targets (the source line
`trap_pos_index, trap_pos, _, _ = self.get_min_trap(...)`), retry on a
three-fold periodic tiling when no minimum was found, return `0` if there is
still none, otherwise fit a degree-40 polynomial (degree 20 on
`LinAlgError`), differentiate twice with `np.gradient` and convert the
curvature at the minimum into a frequency. -/
def get_trapfreq (env : NumEnv) (y_outside trap_outside : List ℚ) : Except PyErr RR := do
  let t ← unpack4 (tuple5 (get_min_trap y_outside trap_outside))
  let trapPos ←
    if (t.2.1).isNan then do
      let trap3 := trap_outside ++ trap_outside ++ trap_outside
      let per := qsub (y_outside.getD (y_outside.length - 1) 0) (y_outside.getD 0 0)
      let y3 := (y_outside.map (fun v => qsub v per)) ++ y_outside ++
        (y_outside.map (fun v => qadd v per))
      let t2 ← unpack4 (tuple5 (get_min_trap y3 trap3))
      pure t2.2.1
    else pure t.2.1
  if trapPos.isNan then
    pure (.val 0)
  else do
    let fit ←
      match env.polyfit (y_outside.drop 5) (trap_outside.drop 5) 40 with
      | .ok f => pure f
      | .error e =>
        if e = .linAlgError then env.polyfit (y_outside.drop 5) (trap_outside.drop 5) 20
        else throw e
    let derFit := npGradient (y_outside.map (polyEval fit)) y_outside
    let der2Fit := npGradient derFit y_outside
    let indexMin := argminIdx (y_outside.map (fun v => qabs (qsub v (RR.toQ trapPos))))
    let moment2 := der2Fit.getD indexMin 0
    pure ((env.sqrtF (qdiv (qmul (qmul moment2 env.kB) env.mK) env.mass)).mulQ env.twoPiInv)

/-- The three coordinate axes a `Viz` object can analyze. -/
inductive Axis3 where
  | X : Axis3
  | Y : Axis3
  | Z : Axis3
deriving DecidableEq

/-- The simulation state that `get_coord_trap_outside_structure` reads:
the trapping axis of the `Viz` object, whether a surface is modelled
(`hasSurface = false` is Python's `type(surface).__name__ == "NoSurface"`),
the hyperfine number `f`, the coordinate array of each axis
(`set_axis_from_axis`), the real part of the 1-D potential column
(`np.real(compute_potential_1D(...))[:, mf_index]`) and the
Casimir-Polder proximity column (`simul.CP[:, mf_index]`). -/
structure VizCfg where
  trappingAxis : Axis3
  hasSurface : Bool
  f : ℕ
  coordOf : Axis3 → List ℚ
  potential1D : Axis3 → ℚ → ℚ → ℕ → List ℚ
  CPcol : ℕ → List ℚ

/-- `Viz.get_coord_trap_outside_structure(axis, coord1, coord2, mf,
edge_no_surface)`.  The mf bookkeeping (`check_mf` lives in the out-of-scope
utils module; the spec says the mf/state index is carried through unchanged)
is `mf_index = int(mf + f)`.  Three modes: a non-trapping axis passes the
arrays through; with no surface an explicit edge is required (else
`ValueError`, the spec's ConfigurationError) and the arrays are truncated at
the nearest sample; with a surface, the peaks of `-CP` of height `>= 10`
select between no truncation (0 peaks), truncation from the peak (1 peak),
the slice `[first peak, second peak)` (2 peaks), or `ValueError` (more). -/
def get_coord_trap_outside_structure (cfg : VizCfg) (axis : Axis3) (c1 c2 : ℚ)
    (mf : ℤ) (edge_no_surface : Option ℚ) : Except PyErr (ℕ × ℚ × List ℚ × List ℚ) :=
  let mf_index := (mf + cfg.f).toNat
  let coord := cfg.coordOf axis
  let trap := cfg.potential1D axis c1 c2 mf_index
  if axis ≠ cfg.trappingAxis then
    .ok (mf_index, 0, coord, trap)
  else if cfg.hasSurface = false then
    match edge_no_surface with
    | none => .error .valueError
    | some edge =>
      let index_edge := argminIdx (coord.map (fun v => qabs (qsub v edge)))
      .ok (mf_index, edge, (coord.drop index_edge).map (fun v => qsub v edge),
        trap.drop index_edge)
  else
    match findPeaksHeight ((cfg.CPcol mf_index).map qneg) 10 with
    | [] => .ok (mf_index, 0, coord, trap)
    | [p] =>
      let edge := coord.getD (p - 1) 0
      .ok (mf_index, edge, (coord.drop p).map (fun v => qsub v edge), trap.drop p)
    | [p, q] =>
      let edge := coord.getD (p - 1) 0
      .ok (mf_index, edge, ((coord.drop p).take (q - p)).map (fun v => qsub v edge),
        (trap.drop p).take (q - p))
    | _ => .error .valueError

/-- Modelled from the spec: `find_nearest` lives in `nanotrappy.utils.utils`,
which is not among the analyzed sources.  The spec describes it as the index
of the axis sample nearest to a value ("Edge index = nearest axis sample",
§4.2); embedded as `np.argmin(np.abs(array - value))`. -/
def find_nearest (arr : List ℚ) (v : ℚ) : ℕ :=
  argminIdx (arr.map (fun a => qabs (qsub a v)))

/-- Modelled from the spec: `nan_to_zeros` lives in `nanotrappy.utils.utils`,
which is not among the analyzed sources.  The spec: "replace any NaN across
all four grids with 0" (§4.4 post-loop). -/
def nanToZero : RR → RR
  | .nan => .val 0
  | .val q => .val q

/-- `nan_to_zeros` applied to one grid (elementwise, see `nanToZero`). -/
def nanToZerosGrid (g : List (List RR)) : List (List RR) :=
  g.map (fun row => row.map nanToZero)

/-- Ceiling of a rational (`Rat` is stored normalized, so a non-integer has
`den > 1` and its ceiling is the floored quotient plus one). -/
def qceil (a : ℚ) : ℤ := if a.den = 1 then a.num else Int.ediv a.num a.den + 1

/-- `np.arange(start, stop, step)`: `ceil((stop-start)/step)` samples spaced
by `step` from `start` (empty for a step of 0, where numpy raises). -/
def arange (start stop step : ℚ) : List ℚ :=
  if step = 0 then []
  else (List.range (qceil (qdiv (qsub stop start) step)).toNat).map
    (fun k => qadd start (qmul step k))

/-- Run `f` over a list, stopping at the first raised exception — the
behaviour of a Python `for` loop whose body can raise. -/
def mapExcept {α β : Type} (f : α → Except PyErr β) : List α → Except PyErr (List β)
  | [] => .ok []
  | a :: rest => do
    let b ← f a
    let bs ← mapExcept f rest
    pure (b :: bs)

/-- One grid cell of `Viz.optimize`: compute the truncated potential for the
powers `(P1, P2)`, run `get_min_trap`; with no left-base index the frequency
is 0, otherwise fit a degree-2 polynomial on the window mirrored around the
minimum through the barrier midpoint, differentiate twice with `np.gradient`
and convert the curvature at the minimum; finally clip `|depth| > 10` and
`|height| > 10` to 0 and store absolute values.  Returns
(position, depth, height, frequency); the fit may raise, which propagates. -/
def optimizeCell (env : NumEnv) (yidx : ℕ) (yout : List ℚ) (pot : ℚ → ℚ → List ℚ)
    (P1 P2 : ℚ) : Except PyErr (RR × RR × RR × RR) :=
  let potc := (pot P1 P2).drop yidx
  match get_min_trap yout potc with
  | .noMin => .ok (.nan, .val 0, .val 0, .val 0)
  | .found _ minPos depth height heightIdx => do
    let heightPos := yout.getD heightIdx 0
    let yleft := qsub minPos (qdiv (qsub minPos heightPos) 2)
    let yright := qadd minPos (qdiv (qsub minPos heightPos) 2)
    let idxLeft := find_nearest yout yleft
    let idxRight := find_nearest yout yright
    let fit ← env.polyfit ((yout.drop idxLeft).take (idxRight - idxLeft))
      ((potc.drop idxLeft).take (idxRight - idxLeft)) 2
    let derFit := npGradient (yout.map (polyEval fit)) yout
    let der2Fit := npGradient derFit yout
    let indexMin := argminIdx (yout.map (fun v => qabs (qsub v minPos)))
    let moment2 := der2Fit.getD indexMin 0
    let trapFreq := (env.sqrtF (qdiv (qmul (qmul moment2 env.kB) env.mK) env.mass)).mulQ
      (qdiv env.twoPiInv env.kHz)
    let depth1 := if 10 < qabs depth then 0 else depth
    let height1 := if 10 < qabs height then 0 else height
    .ok (.val minPos, .val (qabs depth1), .val (qabs height1), trapFreq)

/-- `Viz.optimize(ymin, Pmin1, Pmax1, Pstep1, Pmin2, Pmax2, Pstep2)`: iterate
`reversed(arange(Pmin1, Pmax1, Pstep1))` against `arange(Pmin2, Pmax2,
Pstep2)` (the outer iteration is wrapped in `progressbar_enumerate`, which
lives in the out-of-scope utils module; the spec says progress reporting
"must not block or alter computation", so it iterates like `enumerate`),
computing each cell with `optimizeCell`; afterwards replace NaN by 0 in all
four grids and scale positions by `1e9`.  There is no exception handling
around the cells: the first raising cell aborts the whole sweep. -/
def optimize (env : NumEnv) (axis : List ℚ) (pot : ℚ → ℚ → List ℚ)
    (ymin Pmin1 Pmax1 Pstep1 Pmin2 Pmax2 Pstep2 : ℚ) :
    Except PyErr (List (List RR) × List (List RR) × List (List RR) × List (List RR)) := do
  let Prange1 := (arange Pmin1 Pmax1 Pstep1).reverse
  let Prange2 := arange Pmin2 Pmax2 Pstep2
  let yidx := find_nearest axis ymin
  let yout := axis.drop yidx
  let rows ← mapExcept
    (fun P1 => mapExcept (fun P2 => optimizeCell env yidx yout pot P1 P2) Prange2) Prange1
  let res_pos := nanToZerosGrid (rows.map (fun row => row.map (fun c => c.1)))
  let res_depth := nanToZerosGrid (rows.map (fun row => row.map (fun c => c.2.1)))
  let res_height := nanToZerosGrid (rows.map (fun row => row.map (fun c => c.2.2.1)))
  let res_freq := nanToZerosGrid (rows.map (fun row => row.map (fun c => c.2.2.2)))
  pure (res_pos.map (fun row => row.map (fun r => r.mulQ 1000000000)),
    res_depth, res_height, res_freq)

/-- One grid cell of `Viz.optimize_gui`; its body is the same, line for line,
as the cell body inside `Viz.optimize`. -/
def optimizeGuiCell (env : NumEnv) (yidx : ℕ) (yout : List ℚ) (pot : ℚ → ℚ → List ℚ)
    (P1 P2 : ℚ) : Except PyErr (RR × RR × RR × RR) :=
  let potc := (pot P1 P2).drop yidx
  match get_min_trap yout potc with
  | .noMin => .ok (.nan, .val 0, .val 0, .val 0)
  | .found _ minPos depth height heightIdx => do
    let heightPos := yout.getD heightIdx 0
    let yleft := qsub minPos (qdiv (qsub minPos heightPos) 2)
    let yright := qadd minPos (qdiv (qsub minPos heightPos) 2)
    let idxLeft := find_nearest yout yleft
    let idxRight := find_nearest yout yright
    let fit ← env.polyfit ((yout.drop idxLeft).take (idxRight - idxLeft))
      ((potc.drop idxLeft).take (idxRight - idxLeft)) 2
    let derFit := npGradient (yout.map (polyEval fit)) yout
    let der2Fit := npGradient derFit yout
    let indexMin := argminIdx (yout.map (fun v => qabs (qsub v minPos)))
    let moment2 := der2Fit.getD indexMin 0
    let trapFreq := (env.sqrtF (qdiv (qmul (qmul moment2 env.kB) env.mK) env.mass)).mulQ
      (qdiv env.twoPiInv env.kHz)
    let depth1 := if 10 < qabs depth then 0 else depth
    let height1 := if 10 < qabs height then 0 else height
    .ok (.val minPos, .val (qabs depth1), .val (qabs height1), trapFreq)

/-- `Viz.optimize_gui`: the same sweep as `Viz.optimize` (the loop body of
the source is a verbatim copy), except that it is driven by plain
`enumerate`, emits a Qt progress signal after each outer iteration plus a
benchmark and a finished signal, and stores the result on the object.  The
returned value pairs the four grids with the number of per-row progress
signals emitted; the signals carry no data that feeds back into the grids. -/
def optimize_gui (env : NumEnv) (axis : List ℚ) (pot : ℚ → ℚ → List ℚ)
    (ymin Pmin1 Pmax1 Pstep1 Pmin2 Pmax2 Pstep2 : ℚ) :
    Except PyErr ((List (List RR) × List (List RR) × List (List RR) × List (List RR)) × ℕ) := do
  let Prange1 := (arange Pmin1 Pmax1 Pstep1).reverse
  let Prange2 := arange Pmin2 Pmax2 Pstep2
  let yidx := find_nearest axis ymin
  let yout := axis.drop yidx
  let rows ← mapExcept
    (fun P1 => mapExcept (fun P2 => optimizeGuiCell env yidx yout pot P1 P2) Prange2) Prange1
  let res_pos := nanToZerosGrid (rows.map (fun row => row.map (fun c => c.1)))
  let res_depth := nanToZerosGrid (rows.map (fun row => row.map (fun c => c.2.1)))
  let res_height := nanToZerosGrid (rows.map (fun row => row.map (fun c => c.2.2.1)))
  let res_freq := nanToZerosGrid (rows.map (fun row => row.map (fun c => c.2.2.2)))
  pure ((res_pos.map (fun row => row.map (fun r => r.mulQ 1000000000)),
    res_depth, res_height, res_freq), Prange1.length)

/-- Shape-and-sanitation invariant of one result grid of the sweep: `r` rows,
`c` columns, and no NaN entry. -/
def gridOk (g : List (List RR)) (r c : ℕ) : Prop :=
  g.length = r ∧ (∀ row ∈ g, row.length = c) ∧ ∀ row ∈ g, ∀ v ∈ row, v ≠ RR.nan

/-- A 24-sample axis used in the concrete evaluations below. -/
def exY : List ℚ :=
  [0, 1, 2, 3, 4, 5, 6, 7, 8, 9, 10, 11, 12, 13, 14, 15, 16, 17, 18, 19, 20, 21, 22, 23]

/-- A 24-sample curve with two local minima: depth `-1` at index 8 and depth
`-2` at index 19 (more than `distance = 10` samples apart, so `find_peaks`
keeps both). -/
def exT : List ℚ :=
  [0, 0, 0, 0, 0, 0, 0, 0, -1, 0, 0, 0, 0, 0, 0, 0, 0, 0, 0, -2, 0, 0, 0, 0]

/-- A 12-sample axis used in the concrete evaluations below. -/
def exY12 : List ℚ := [0, 1, 2, 3, 4, 5, 6, 7, 8, 9, 10, 11]

/-- A 12-sample curve with a single local minimum of depth `-1` at index 8
(accepted by `get_min_trap`: index `> 5`, prominence `1 ≥ 5e-4`). -/
def exT12 : List ℚ := [0, 0, 0, 0, 0, 0, 0, 0, -1, 0, 0, 0]

/-- A numeric environment whose external fit always succeeds (with a zero
polynomial) and whose square root is the constant 0; all conversion
constants are 1. -/
def env0 : NumEnv := ⟨fun _ _ _ => .ok [], fun _ => .val 0, 1, 1, 1, 1, 1⟩

/-- A numeric environment whose external least-squares fit raises
`LinAlgError` (the numerically singular case). -/
def envFail : NumEnv := ⟨fun _ _ _ => .error .linAlgError, fun _ => .val 0, 1, 1, 1, 1, 1⟩

/-- A concrete simulation state in structure mode: trapping axis `Z`, a
surface present, and a proximity column whose negation has exactly two peaks
of height `≥ 10`, at indices 1 and 4. -/
def cfg0 : VizCfg :=
  ⟨.Z, true, 0, fun _ => [0, 10, 20, 30, 40, 50, 60], fun _ _ _ _ => [5, 5, 5, 5, 5, 5, 5],
    fun _ => [0, -11, 0, 0, -12, 0, 0]⟩

/-! ### Bridges between the kernel-computable arithmetic and the standard
operations on `ℚ` -/

theorem qadd_eq (a b : ℚ) : qadd a b = a + b := (Rat.add_def' a b).symm

theorem qsub_eq (a b : ℚ) : qsub a b = a - b := (Rat.sub_def' a b).symm

theorem qmul_eq (a b : ℚ) : qmul a b = a * b := by
  rw [qmul, Rat.mul_def, Rat.normalize_eq_mkRat]

theorem qneg_eq (a : ℚ) : qneg a = -a := by
  rw [qneg, ← Rat.neg_mkRat, Rat.mkRat_self]

theorem qinv_eq (a : ℚ) : qinv a = a⁻¹ := by
  rw [qinv, show a⁻¹ = a.inv from rfl, Rat.inv_def]

theorem qdiv_eq (a b : ℚ) : qdiv a b = a / b := by
  rw [qdiv, qmul_eq, qinv_eq, div_eq_mul_inv]

theorem qabs_eq (a : ℚ) : qabs a = |a| := by
  rcases le_or_lt 0 a.num with h | h
  · have hnum : (a.num.natAbs : ℤ) = a.num := Int.natAbs_of_nonneg h
    rw [qabs, hnum, Rat.mkRat_self, abs_of_nonneg (Rat.num_nonneg.mp h)]
  · have hnum : (a.num.natAbs : ℤ) = -a.num := by omega
    have ha : a < 0 := by
      by_contra hc
      exact absurd (Rat.num_nonneg.mpr (not_lt.mp hc)) (not_le.mpr h)
    rw [qabs, hnum, ← Rat.neg_mkRat, Rat.mkRat_self, abs_of_neg ha]

theorem mkRat_one_2000_eq : mkRat 1 2000 = (1 : ℚ) / 2000 := by
  rw [Rat.mkRat_eq_divInt, Rat.divInt_eq_div]
  norm_num

/-! ### The first-occurrence argmin -/

theorem argminIdx_lt_length : ∀ (l : List ℚ), l ≠ [] → argminIdx l < l.length
  | [], h => absurd rfl h
  | [_], _ => Nat.zero_lt_one
  | a :: b :: rest, _ => by
    simp only [argminIdx]
    split
    · simp
    · have := argminIdx_lt_length (b :: rest) (by simp)
      simpa [Nat.succ_lt_succ_iff] using this

theorem argminIdx_le_getD :
    ∀ (l : List ℚ), ∀ m < l.length, l.getD (argminIdx l) 0 ≤ l.getD m 0
  | [], m, hm => by simp at hm
  | [a], m, hm => by
    have hm0 : m = 0 := by
      simp only [List.length_singleton] at hm
      omega
    subst hm0
    simp [argminIdx]
  | a :: b :: rest, m, hm => by
    simp only [argminIdx]
    split
    · next hle =>
      match m with
      | 0 => simp
      | m' + 1 =>
        have hm' : m' < (b :: rest).length := by simpa using hm
        calc (a :: b :: rest).getD 0 0 = a := rfl
          _ ≤ (b :: rest).getD (argminIdx (b :: rest)) 0 := hle
          _ ≤ (b :: rest).getD m' 0 := argminIdx_le_getD (b :: rest) m' hm'
    · next hgt =>
      match m with
      | 0 =>
        have := le_of_not_le hgt
        simpa using this
      | m' + 1 =>
        have hm' : m' < (b :: rest).length := by simpa using hm
        simpa using argminIdx_le_getD (b :: rest) m' hm'

theorem argminIdx_first :
    ∀ (l : List ℚ), ∀ m < argminIdx l, l.getD (argminIdx l) 0 < l.getD m 0
  | [], m, hm => by simp [argminIdx] at hm
  | [_], m, hm => by simp [argminIdx] at hm
  | a :: b :: rest, m, hm => by
    simp only [argminIdx] at hm ⊢
    by_cases hle : a ≤ (b :: rest).getD (argminIdx (b :: rest)) 0
    · rw [if_pos hle] at hm
      omega
    · rw [if_neg hle] at hm ⊢
      cases m with
      | zero => simpa using lt_of_not_le hle
      | succ m' =>
        have hm' : m' < argminIdx (b :: rest) := by omega
        simpa using argminIdx_first (b :: rest) m' hm'

/-! ### Exception propagation through the sweep loops -/

theorem mapExcept_ok_length {α β : Type} (f : α → Except PyErr β) :
    ∀ (l : List α) (r : List β), mapExcept f l = .ok r → r.length = l.length := by
  intro l
  induction l with
  | nil => intro r h; simp only [mapExcept] at h; cases h; rfl
  | cons a rest ih =>
    intro r h
    simp only [mapExcept, bind, Except.bind] at h
    cases hfa : f a with
    | error e => rw [hfa] at h; cases h
    | ok b =>
      rw [hfa] at h
      cases hrest : mapExcept f rest with
      | error e => rw [hrest] at h; cases h
      | ok bs =>
        rw [hrest] at h
        simp only [pure, Except.pure, Except.ok.injEq] at h
        subst h
        simp [ih bs hrest]

theorem mapExcept_ok_forall {α β : Type} (f : α → Except PyErr β) :
    ∀ (l : List α) (r : List β), mapExcept f l = .ok r →
      ∀ b ∈ r, ∃ a ∈ l, f a = .ok b := by
  intro l
  induction l with
  | nil =>
    intro r h
    simp only [mapExcept] at h; cases h; simp
  | cons a rest ih =>
    intro r h
    simp only [mapExcept, bind, Except.bind] at h
    cases hfa : f a with
    | error e => rw [hfa] at h; cases h
    | ok b =>
      rw [hfa] at h
      cases hrest : mapExcept f rest with
      | error e => rw [hrest] at h; cases h
      | ok bs =>
        rw [hrest] at h
        simp only [pure, Except.pure, Except.ok.injEq] at h
        subst h
        intro v hv
        rcases List.mem_cons.mp hv with hv | hv
        · exact ⟨a, by simp, hv ▸ hfa⟩
        · rcases ih bs hrest v hv with ⟨a', ha', hfa'⟩
          exact ⟨a', by simp [ha'], hfa'⟩

theorem mapExcept_error_head {α β : Type} (f : α → Except PyErr β) (a : α) (rest : List α)
    (e : PyErr) (h : f a = .error e) : mapExcept f (a :: rest) = .error e := by
  simp only [mapExcept, bind, Except.bind, h]

/-! ### Small facts about the sanitation pass -/

theorem nanToZero_not_nan (r : RR) : nanToZero r ≠ .nan := by
  cases r <;> simp [nanToZero]

theorem mulQ_not_nan (r : RR) (c : ℚ) (h : r ≠ .nan) : r.mulQ c ≠ .nan := by
  cases r
  · exact absurd rfl h
  · simp [RR.mulQ]

theorem tuple5_length (m : MinTrap) : (tuple5 m).length = 5 := by
  cases m <;> rfl

theorem getD_of_lt {α : Type} (l : List α) (d : α) (n : ℕ) (h : n < l.length) :
    l.getD n d = l[n] := by
  simp [List.getD_eq_getElem?_getD, List.getElem?_eq_getElem h]

theorem getD_default_eq {α : Type} (l : List α) (d1 d2 : α) (n : ℕ) (h : n < l.length) :
    l.getD n d1 = l.getD n d2 := by
  rw [getD_of_lt _ _ _ h, getD_of_lt _ _ _ h]

theorem getD_map_peakval (t : List ℚ) (cs : List PeakInfo) (m : ℕ) (hm : m < cs.length) :
    (cs.map fun c => t.getD c.peak 0).getD m 0 = t.getD (cs.getD m default).peak 0 := by
  rw [getD_of_lt _ _ _ (by simpa using hm), getD_of_lt _ _ _ hm, List.getElem_map]

/-- Every candidate that survives `findPeaksDistProm` passed the prominence
filter, so its prominence is at least the threshold `5e-4 = 1/2000`. -/
theorem prominence_lower_bound {x : List ℚ} {c : PeakInfo}
    (hc : c ∈ findPeaksDistProm x) : (1 : ℚ) / 2000 ≤ c.prominence := by
  simp only [findPeaksDistProm, List.mem_filter] at hc
  rw [← mkRat_one_2000_eq]
  exact of_decide_eq_true hc.2

/-- Unfolding equation of `get_min_trap` in the several-minima case. -/
theorem get_min_trap_multi_eq (y t : List ℚ) (c0 c1 : PeakInfo) (rest : List PeakInfo)
    (hcs : findPeaksDistProm (t.map qneg) = c0 :: c1 :: rest) :
    get_min_trap y t =
      .found ((c0 :: c1 :: rest).getD
          (argminIdx ((c0 :: c1 :: rest).map fun c => t.getD c.peak 0)) c0).peak
        (y.getD ((c0 :: c1 :: rest).getD
          (argminIdx ((c0 :: c1 :: rest).map fun c => t.getD c.peak 0)) c0).peak 0)
        (t.getD ((c0 :: c1 :: rest).getD
          (argminIdx ((c0 :: c1 :: rest).map fun c => t.getD c.peak 0)) c0).peak 0)
        (qneg ((c0 :: c1 :: rest).getD
          (argminIdx ((c0 :: c1 :: rest).map fun c => t.getD c.peak 0)) c0).prominence)
        c0.leftBase := by
  rw [get_min_trap, hcs]

/-! ### Claim theorems -/

/-- Claim C8: `get_min_trap` always returns a 5-tuple, while `get_trapfreq`
unpacks its result into only 4 targets, so on every (1-D) input
`get_trapfreq` raises `ValueError` before computing any frequency and never
returns a numeric value. -/
theorem get_trapfreq_always_raises_valueerror (env : NumEnv) (y t : List ℚ) :
    (tuple5 (get_min_trap y t)).length = 5 ∧
    get_trapfreq env y t = .error .valueError := by
  refine ⟨tuple5_length _, ?_⟩
  have h5 : unpack4 (tuple5 (get_min_trap y t)) = .error .valueError := by
    cases get_min_trap y t <;> rfl
  unfold get_trapfreq
  rw [h5]
  rfl

/-- Claim C4 (evidence of the code bug): on a flat curve `get_min_trap`
reports "none", and instead of the spec's tile-and-retry path ending in a
returned 0, `get_trapfreq` raises `ValueError` at the 4-target unpacking of
the 5-tuple. -/
theorem get_trapfreq_flat_curve_raises :
    get_min_trap [0, 1, 2] ([0, 0, 0] : List ℚ) = .noMin ∧
    get_trapfreq env0 [0, 1, 2] [0, 0, 0] = .error .valueError := ⟨rfl, rfl⟩

/-- Claim C2 counterexample: on a 12-sample curve with a single accepted
minimum (index 8 > 5) whose prominence is 1, `get_min_trap` returns `-1` in
the barrier-height field — a negative value, and not equal to the
prominence. -/
theorem get_min_trap_height_negative_cex :
    get_min_trap exY12 exT12 = .found 8 8 (-1) (-1) 7 ∧
    (findPeaksDistProm (exT12.map qneg)).map (fun c => c.prominence) = [1] ∧
    ¬ ((0 : ℚ) ≤ -1) ∧ ((-1 : ℚ) ≠ 1) :=
  ⟨rfl, rfl, by norm_num, by norm_num⟩

/-- Claim C2 (amended): whenever `get_min_trap` accepts a minimum, the
barrier-height field it returns is the **negation** of the prominence of the
selected candidate — a value that is at most `-5e-4`, hence strictly
negative; its magnitude equals the prominence. -/
theorem get_min_trap_height_eq_neg_prominence (y t : List ℚ) (i : ℕ) (p d h : ℚ)
    (lb : ℕ) (hf : get_min_trap y t = .found i p d h lb) :
    ∃ c ∈ findPeaksDistProm (t.map qneg),
      c.peak = i ∧ h = -c.prominence ∧ h ≤ -(1 / 2000) := by
  rw [get_min_trap] at hf
  split at hf
  · exact absurd hf (by simp)
  · next c heq =>
    split at hf
    · injection hf with h1 h2 h3 h4 h5
      refine ⟨c, by rw [heq]; simp, h1, ?_, ?_⟩
      · rw [← h4, qneg_eq]
      · have hprom : (1 : ℚ) / 2000 ≤ c.prominence :=
          prominence_lower_bound (by rw [heq]; simp)
        rw [← h4, qneg_eq]
        linarith
    · exact absurd hf (by simp)
  · next c0 c1 rest heq =>
    have hlen : argminIdx ((c0 :: c1 :: rest).map fun c => t.getD c.peak 0) <
        (c0 :: c1 :: rest).length := by
      have := argminIdx_lt_length ((c0 :: c1 :: rest).map fun c => t.getD c.peak 0)
        (by simp)
      simpa using this
    set sel := (c0 :: c1 :: rest).getD
      (argminIdx ((c0 :: c1 :: rest).map fun c => t.getD c.peak 0)) c0 with hsel
    have hmem : sel ∈ c0 :: c1 :: rest := by
      rw [hsel, getD_of_lt _ _ _ hlen]
      exact List.getElem_mem _
    injection hf with h1 h2 h3 h4 h5
    refine ⟨sel, by rw [heq]; exact hmem, h1, ?_, ?_⟩
    · rw [← h4, qneg_eq]
    · have hprom : (1 : ℚ) / 2000 ≤ sel.prominence :=
        prominence_lower_bound (heq ▸ hmem)
      rw [← h4, qneg_eq]
      linarith

/-- Witness for the amended claim C2 at the 12-sample single-minimum curve:
the returned height `-1` is the negated prominence of the accepted
candidate. -/
theorem get_min_trap_height_eq_neg_prominence_witness :
    ∃ c ∈ findPeaksDistProm (exT12.map qneg),
      c.peak = 8 ∧ (-1 : ℚ) = -c.prominence ∧ (-1 : ℚ) ≤ -(1 / 2000) :=
  get_min_trap_height_eq_neg_prominence exY12 exT12 8 8 (-1) (-1) 7 rfl

/-- Claim C9: when `get_min_trap` detects more than one local minimum, the
left-base field of the returned tuple is `left_bases[0]` — the left base of
the **first** detected candidate, independent of which candidate is
selected. -/
theorem get_min_trap_left_base_from_first (y t : List ℚ) (c0 c1 : PeakInfo)
    (rest : List PeakInfo) (hcs : findPeaksDistProm (t.map qneg) = c0 :: c1 :: rest) :
    ∃ i p d h, get_min_trap y t = .found i p d h c0.leftBase := by
  rw [get_min_trap, hcs]
  exact ⟨_, _, _, _, rfl⟩

/-- Witness for claim C9 on the two-minima curve `exT`: the selected minimum
is the second candidate (index 19, depth `-2`, its own left base 18), yet the
returned left-base field is 7, the first candidate's. -/
theorem get_min_trap_left_base_from_first_witness :
    (∃ i p d h, get_min_trap exY exT = .found i p d h 7) ∧
    get_min_trap exY exT = .found 19 19 (-2) (-2) 7 ∧
    (findPeaksDistProm (exT.map qneg)).map (fun c => c.leftBase) = [7, 18] :=
  ⟨get_min_trap_left_base_from_first exY exT ⟨8, 1, 7, 9⟩ ⟨19, 2, 18, 20⟩ [] rfl,
    rfl, rfl⟩

/-- Claim C7: when more than one local minimum is detected, `get_min_trap`
returns the candidate with the lowest curve value (its index, axis position
and depth), and on exactly equal lowest values the first occurrence: every
candidate before the selected one has a strictly larger curve value. -/
theorem get_min_trap_multi_selects_lowest (y t : List ℚ) (cs : List PeakInfo)
    (hcs : findPeaksDistProm (t.map qneg) = cs) (h2 : 2 ≤ cs.length) :
    ∃ k < cs.length,
      get_min_trap y t = .found (cs.getD k default).peak
        (y.getD (cs.getD k default).peak 0) (t.getD (cs.getD k default).peak 0)
        (qneg (cs.getD k default).prominence) (cs.getD 0 default).leftBase ∧
      (∀ m < cs.length,
        t.getD (cs.getD k default).peak 0 ≤ t.getD (cs.getD m default).peak 0) ∧
      ∀ m < k, t.getD (cs.getD k default).peak 0 < t.getD (cs.getD m default).peak 0 := by
  rcases cs with _ | ⟨c0, tail⟩
  · simp at h2
  rcases tail with _ | ⟨c1, rest⟩
  · simp at h2
  have hlen : argminIdx ((c0 :: c1 :: rest).map fun c => t.getD c.peak 0) <
      (c0 :: c1 :: rest).length := by
    simpa using argminIdx_lt_length _
      (by simp : ((c0 :: c1 :: rest).map fun c => t.getD c.peak 0) ≠ [])
  refine ⟨argminIdx ((c0 :: c1 :: rest).map fun c => t.getD c.peak 0), ?_, ?_, ?_, ?_⟩
  · exact hlen
  · rw [get_min_trap_multi_eq y t c0 c1 rest hcs,
      getD_default_eq (c0 :: c1 :: rest) c0 default _ hlen,
      show ((c0 :: c1 :: rest).getD 0 default) = c0 from rfl]
  · intro m hm
    have := argminIdx_le_getD _ m
      (show m < ((c0 :: c1 :: rest).map fun c => t.getD c.peak 0).length by simpa using hm)
    rwa [getD_map_peakval t _ _ hlen, getD_map_peakval t _ _ hm] at this
  · intro m hm
    have hmlen : m < (c0 :: c1 :: rest).length := lt_trans hm hlen
    have := argminIdx_first _ m hm
    rwa [getD_map_peakval t _ _ hlen, getD_map_peakval t _ _ hmlen] at this

/-- Witness for claim C7 at the two-minima curve `exT`: the selected
candidate is the one with curve value `-2` (index 19), which is weakly below
the values of both candidates and strictly below all earlier ones. -/
theorem get_min_trap_multi_selects_lowest_witness :
    ∃ k < ([⟨8, 1, 7, 9⟩, ⟨19, 2, 18, 20⟩] : List PeakInfo).length,
      get_min_trap exY exT =
        .found (([⟨8, 1, 7, 9⟩, ⟨19, 2, 18, 20⟩] : List PeakInfo).getD k default).peak
          (exY.getD (([⟨8, 1, 7, 9⟩, ⟨19, 2, 18, 20⟩] : List PeakInfo).getD k default).peak 0)
          (exT.getD (([⟨8, 1, 7, 9⟩, ⟨19, 2, 18, 20⟩] : List PeakInfo).getD k default).peak 0)
          (qneg (([⟨8, 1, 7, 9⟩, ⟨19, 2, 18, 20⟩] : List PeakInfo).getD k default).prominence)
          (([⟨8, 1, 7, 9⟩, ⟨19, 2, 18, 20⟩] : List PeakInfo).getD 0 default).leftBase ∧
      (∀ m < ([⟨8, 1, 7, 9⟩, ⟨19, 2, 18, 20⟩] : List PeakInfo).length,
        exT.getD (([⟨8, 1, 7, 9⟩, ⟨19, 2, 18, 20⟩] : List PeakInfo).getD k default).peak 0 ≤
          exT.getD (([⟨8, 1, 7, 9⟩, ⟨19, 2, 18, 20⟩] : List PeakInfo).getD m default).peak 0) ∧
      ∀ m < k,
        exT.getD (([⟨8, 1, 7, 9⟩, ⟨19, 2, 18, 20⟩] : List PeakInfo).getD k default).peak 0 <
          exT.getD (([⟨8, 1, 7, 9⟩, ⟨19, 2, 18, 20⟩] : List PeakInfo).getD m default).peak 0 :=
  get_min_trap_multi_selects_lowest exY exT [⟨8, 1, 7, 9⟩, ⟨19, 2, 18, 20⟩] rfl
    (by decide)

/-- Claim C3: `get_coord_trap_outside_structure` raises (a `ValueError`, the
spec's ConfigurationError) in exactly two situations — on the trapping axis
with no surface modelled and no explicit edge supplied, and in
structure-with-proximity-curve mode with more than two proximity peaks.  In
every other situation (non-trapping axis; explicit edge given; 0, 1 or 2
peaks) it returns normally. -/
theorem get_coord_error_characterization (cfg : VizCfg) (axis : Axis3) (c1 c2 : ℚ)
    (mf : ℤ) (edge : Option ℚ) :
    (∃ e, get_coord_trap_outside_structure cfg axis c1 c2 mf edge = .error e) ↔
      (axis = cfg.trappingAxis ∧ cfg.hasSurface = false ∧ edge = none) ∨
      (axis = cfg.trappingAxis ∧ cfg.hasSurface = true ∧
        2 < (findPeaksHeight ((cfg.CPcol (mf + ↑cfg.f).toNat).map qneg) 10).length) := by
  unfold get_coord_trap_outside_structure
  by_cases ha : axis = cfg.trappingAxis
  · cases hs : cfg.hasSurface with
    | false =>
      cases edge with
      | none => simp [ha, hs]
      | some v => simp [ha, hs]
    | true =>
      rcases hp : findPeaksHeight ((cfg.CPcol (mf + ↑cfg.f).toNat).map qneg) 10 with
        _ | ⟨p, _ | ⟨q, _ | ⟨r, rest⟩⟩⟩
      · simp [ha, hs, hp]
      · simp [ha, hs, hp]
      · simp [ha, hs, hp]
      · simp [ha, hs, hp]
  · simp [ha]

/-- Claim C6 counterexample: for `cfg0` (proximity peaks at indices 1 and 4,
coordinate axis `[0,10,...,60]`), the outside axis is `[10,20,30]` — the
closed interval `[1,4]` would contain four samples and include the re-anchored
second-peak sample `40`, but the returned slice has three samples and `40` is
not among them: the second endpoint is excluded. -/
theorem get_coord_two_peaks_cex :
    get_coord_trap_outside_structure cfg0 .Z 0 0 0 none =
      .ok (0, 0, [10, 20, 30], [5, 5, 5]) ∧
    findPeaksHeight ((cfg0.CPcol 0).map qneg) 10 = [1, 4] ∧
    qsub ((cfg0.coordOf .Z).getD 4 0) ((cfg0.coordOf .Z).getD 0 0) = (40 : ℚ) ∧
    ([10, 20, 30] : List ℚ).length = 3 ∧ 4 - 1 + 1 = 4 ∧
    (40 : ℚ) ∉ ([10, 20, 30] : List ℚ) :=
  ⟨rfl, rfl, rfl, rfl, rfl, by decide⟩

/-- Claim C6 (amended): in structure mode with exactly two proximity peaks
`[p, q]`, the edge is the axis value one sample before the first peak, and
the outside axis/curve are the half-open index interval `[p, q)` — first
endpoint included, second excluded — re-anchored by subtracting the edge. -/
theorem get_coord_two_peaks_halfopen (cfg : VizCfg) (axis : Axis3) (c1 c2 : ℚ)
    (mf : ℤ) (edge : Option ℚ) (p q : ℕ)
    (ha : axis = cfg.trappingAxis) (hs : cfg.hasSurface = true)
    (hp : findPeaksHeight ((cfg.CPcol (mf + ↑cfg.f).toNat).map qneg) 10 = [p, q])
    (hpq : p < q) (hq : q ≤ (cfg.coordOf axis).length)
    (hqt : q ≤ (cfg.potential1D axis c1 c2 (mf + ↑cfg.f).toNat).length) :
    ∃ oa oc,
      get_coord_trap_outside_structure cfg axis c1 c2 mf edge =
        .ok ((mf + ↑cfg.f).toNat, (cfg.coordOf axis).getD (p - 1) 0, oa, oc) ∧
      oa.length = q - p ∧ oc.length = q - p ∧
      (∀ i < q - p, oa.getD i 0 =
        ((cfg.coordOf axis).getD (p + i) 0) - ((cfg.coordOf axis).getD (p - 1) 0)) ∧
      (∀ i < q - p, oc.getD i 0 =
        (cfg.potential1D axis c1 c2 (mf + ↑cfg.f).toNat).getD (p + i) 0) := by
  refine ⟨(((cfg.coordOf axis).drop p).take (q - p)).map
      (fun v => qsub v ((cfg.coordOf axis).getD (p - 1) 0)),
    ((cfg.potential1D axis c1 c2 (mf + ↑cfg.f).toNat).drop p).take (q - p),
    ?_, ?_, ?_, ?_, ?_⟩
  · unfold get_coord_trap_outside_structure
    rw [ha, if_neg (by simp), if_neg (by simp [hs]), hp]
  · rw [List.length_map, List.length_take, List.length_drop]
    omega
  · rw [List.length_take, List.length_drop]
    omega
  · intro i hi
    have h1 : i < ((((cfg.coordOf axis).drop p).take (q - p)).map
        (fun v => qsub v ((cfg.coordOf axis).getD (p - 1) 0))).length := by
      rw [List.length_map, List.length_take, List.length_drop]
      omega
    rw [getD_of_lt _ _ _ h1, List.getElem_map, List.getElem_take, List.getElem_drop,
      qsub_eq, getD_of_lt _ _ _ (show p + i < (cfg.coordOf axis).length by omega)]
  · intro i hi
    have h1 : i < (((cfg.potential1D axis c1 c2 (mf + ↑cfg.f).toNat).drop p).take
        (q - p)).length := by
      rw [List.length_take, List.length_drop]
      omega
    rw [getD_of_lt _ _ _ h1, List.getElem_take, List.getElem_drop,
      getD_of_lt _ _ _
        (show p + i < (cfg.potential1D axis c1 c2 (mf + ↑cfg.f).toNat).length by omega)]

/-- Witness for the amended claim C6 at `cfg0`: peaks `[1, 4]` give the
half-open slice of length 3 anchored at `coord[0]`. -/
theorem get_coord_two_peaks_halfopen_witness :
    ∃ oa oc,
      get_coord_trap_outside_structure cfg0 .Z 0 0 0 none =
        .ok (((0 : ℤ) + (cfg0.f : ℤ)).toNat, (cfg0.coordOf .Z).getD (1 - 1) 0, oa, oc) ∧
      oa.length = 4 - 1 ∧ oc.length = 4 - 1 ∧
      (∀ i < 4 - 1, oa.getD i 0 =
        ((cfg0.coordOf .Z).getD (1 + i) 0) - ((cfg0.coordOf .Z).getD (1 - 1) 0)) ∧
      (∀ i < 4 - 1, oc.getD i 0 =
        (cfg0.potential1D .Z 0 0 ((0 : ℤ) + (cfg0.f : ℤ)).toNat).getD (1 + i) 0) :=
  get_coord_two_peaks_halfopen cfg0 .Z 0 0 0 none 1 4 rfl rfl rfl
    (by decide) (by decide) (by decide)

set_option maxRecDepth 8000 in
/-- Claim C5 counterexample: a 1×1 sweep over a curve with an accepted
minimum, in an environment whose degree-2 polynomial fit raises
`LinAlgError`, aborts the entire sweep with that error — the failing cell's
frequency is not set to 0 and iteration does not continue, and the aborting
exception is not a ConfigurationError from BoundaryLocator (`optimize` never
invokes `get_coord_trap_outside_structure`). -/
theorem optimize_fit_failure_aborts_cex :
    optimize envFail exY (fun _ _ => exT) 0 0 1 1 0 1 1 = .error .linAlgError := rfl

/-- Claim C5 (amended): `optimize` has no per-cell exception handling — an
exception raised by the first computed grid cell propagates and aborts the
whole sweep with the same error. -/
theorem optimize_first_cell_error_aborts (env : NumEnv) (axis : List ℚ)
    (pot : ℚ → ℚ → List ℚ) (ymin Pmin1 Pmax1 Pstep1 Pmin2 Pmax2 Pstep2 : ℚ)
    (P1 : ℚ) (r1 : List ℚ) (P2 : ℚ) (r2 : List ℚ) (e : PyErr)
    (h1 : (arange Pmin1 Pmax1 Pstep1).reverse = P1 :: r1)
    (h2 : arange Pmin2 Pmax2 Pstep2 = P2 :: r2)
    (hc : optimizeCell env (find_nearest axis ymin) (axis.drop (find_nearest axis ymin))
      pot P1 P2 = .error e) :
    optimize env axis pot ymin Pmin1 Pmax1 Pstep1 Pmin2 Pmax2 Pstep2 = .error e := by
  have hinner : mapExcept (fun P2 => optimizeCell env (find_nearest axis ymin)
      (axis.drop (find_nearest axis ymin)) pot P1 P2) (P2 :: r2) = .error e :=
    mapExcept_error_head _ P2 r2 e hc
  have houter : mapExcept (fun P1 => mapExcept (fun P2 => optimizeCell env
      (find_nearest axis ymin) (axis.drop (find_nearest axis ymin)) pot P1 P2)
      (arange Pmin2 Pmax2 Pstep2)) (P1 :: r1) = .error e := by
    apply mapExcept_error_head
    rw [h2]
    exact hinner
  simp only [optimize]
  rw [h1, houter]
  rfl

set_option maxRecDepth 8000 in
/-- Witness for the amended claim C5: a 2×1 sweep whose first computed cell
(the highest power, iterated first) raises `LinAlgError` aborts with it. -/
theorem optimize_first_cell_error_aborts_witness :
    optimize envFail exY (fun _ _ => exT) 0 0 2 1 0 1 1 = .error .linAlgError :=
  optimize_first_cell_error_aborts envFail exY (fun _ _ => exT) 0 0 2 1 0 1 1
    1 [0] 0 [] .linAlgError (by decide) (by decide) rfl

/-- Claim C10: for identical inputs and the same deterministic potential
provider, `optimize_gui` computes exactly the grids of `optimize`; it differs
only in the progress/benchmark/finished signal emission, which carries no
numeric data. -/
theorem optimize_gui_eq_optimize (env : NumEnv) (axis : List ℚ) (pot : ℚ → ℚ → List ℚ)
    (ymin Pmin1 Pmax1 Pstep1 Pmin2 Pmax2 Pstep2 : ℚ) :
    (optimize_gui env axis pot ymin Pmin1 Pmax1 Pstep1 Pmin2 Pmax2 Pstep2).map Prod.fst =
    optimize env axis pot ymin Pmin1 Pmax1 Pstep1 Pmin2 Pmax2 Pstep2 := by
  have hcell : optimizeGuiCell = optimizeCell := rfl
  simp only [optimize, optimize_gui, hcell]
  cases hM : mapExcept (fun P1 => mapExcept (fun P2 => optimizeCell env
      (find_nearest axis ymin) (axis.drop (find_nearest axis ymin)) pot P1 P2)
      (arange Pmin2 Pmax2 Pstep2)) ((arange Pmin1 Pmax1 Pstep1).reverse) with
  | error e => rfl
  | ok rows => rfl

/-- The sanitized grid built from loop results has the loop's row count, the
given column count, and no NaN entries. -/
theorem gridOk_build (rows : List (List (RR × RR × RR × RR))) (r c : ℕ)
    (hr : rows.length = r) (hc : ∀ row ∈ rows, row.length = c)
    (sel : (RR × RR × RR × RR) → RR) :
    gridOk (nanToZerosGrid (rows.map (fun row => row.map sel))) r c := by
  refine ⟨by simp [nanToZerosGrid, hr], ?_, ?_⟩
  · intro row hrow
    simp only [nanToZerosGrid, List.mem_map] at hrow
    obtain ⟨row1, ⟨row0, hrow0, rfl⟩, rfl⟩ := hrow
    simp [hc row0 hrow0]
  · intro row hrow v hv
    simp only [nanToZerosGrid, List.mem_map] at hrow
    obtain ⟨row1, ⟨row0, hrow0, rfl⟩, rfl⟩ := hrow
    simp only [List.mem_map] at hv
    obtain ⟨u, hu, rfl⟩ := hv
    exact nanToZero_not_nan u

/-- Scaling a sanitized grid by a finite factor preserves shape and
NaN-freedom. -/
theorem gridOk_scale (g : List (List RR)) (r c : ℕ) (s : ℚ) (h : gridOk g r c) :
    gridOk (g.map (fun row => row.map (fun v => v.mulQ s))) r c := by
  obtain ⟨h1, h2, h3⟩ := h
  refine ⟨by simp [h1], ?_, ?_⟩
  · intro row hrow
    simp only [List.mem_map] at hrow
    obtain ⟨row0, hrow0, rfl⟩ := hrow
    simp [h2 row0 hrow0]
  · intro row hrow v hv
    simp only [List.mem_map] at hrow
    obtain ⟨row0, hrow0, rfl⟩ := hrow
    simp only [List.mem_map] at hv
    obtain ⟨u, hu, rfl⟩ := hv
    exact mulQ_not_nan u s (h3 row0 hrow0 u hu)

/-- Claim C1: whenever `optimize` returns, each of the four grids has shape
`(len(controlRange1), len(controlRange2))`, and after the NaN-to-zero
sanitation pass (and the position scaling) none of them contains a NaN. -/
theorem optimize_grid_shapes_no_nan (env : NumEnv) (axis : List ℚ)
    (pot : ℚ → ℚ → List ℚ) (ymin Pmin1 Pmax1 Pstep1 Pmin2 Pmax2 Pstep2 : ℚ)
    (g1 g2 g3 g4 : List (List RR))
    (hok : optimize env axis pot ymin Pmin1 Pmax1 Pstep1 Pmin2 Pmax2 Pstep2 =
      .ok (g1, g2, g3, g4))
    (hne1 : arange Pmin1 Pmax1 Pstep1 ≠ []) (hne2 : arange Pmin2 Pmax2 Pstep2 ≠ []) :
    gridOk g1 (arange Pmin1 Pmax1 Pstep1).length (arange Pmin2 Pmax2 Pstep2).length ∧
    gridOk g2 (arange Pmin1 Pmax1 Pstep1).length (arange Pmin2 Pmax2 Pstep2).length ∧
    gridOk g3 (arange Pmin1 Pmax1 Pstep1).length (arange Pmin2 Pmax2 Pstep2).length ∧
    gridOk g4 (arange Pmin1 Pmax1 Pstep1).length (arange Pmin2 Pmax2 Pstep2).length := by
  simp only [optimize] at hok
  cases hM : mapExcept (fun P1 => mapExcept (fun P2 => optimizeCell env
      (find_nearest axis ymin) (axis.drop (find_nearest axis ymin)) pot P1 P2)
      (arange Pmin2 Pmax2 Pstep2)) ((arange Pmin1 Pmax1 Pstep1).reverse) with
  | error e =>
    rw [hM] at hok
    simp only [bind, Except.bind] at hok
    cases hok
  | ok rows =>
    rw [hM] at hok
    simp only [bind, Except.bind, pure, Except.pure, Except.ok.injEq, Prod.mk.injEq] at hok
    obtain ⟨e1, e2, e3, e4⟩ := hok
    have hr : rows.length = (arange Pmin1 Pmax1 Pstep1).length := by
      have := mapExcept_ok_length _ _ _ hM
      simpa using this
    have hc : ∀ row ∈ rows, row.length = (arange Pmin2 Pmax2 Pstep2).length := by
      intro row hrow
      obtain ⟨P1, _, hfa⟩ := mapExcept_ok_forall _ _ _ hM row hrow
      exact mapExcept_ok_length _ _ _ hfa
    refine ⟨?_, ?_, ?_, ?_⟩
    · rw [← e1]
      exact gridOk_scale _ _ _ _ (gridOk_build rows _ _ hr hc _)
    · rw [← e2]
      exact gridOk_build rows _ _ hr hc _
    · rw [← e3]
      exact gridOk_build rows _ _ hr hc _
    · rw [← e4]
      exact gridOk_build rows _ _ hr hc _

/-- Witness for claim C1: a 2×2 sweep over a flat potential returns four 2×2
all-zero grids, which satisfy the shape and no-NaN invariant. -/
theorem optimize_grid_shapes_no_nan_witness :
    gridOk [[RR.val 0, RR.val 0], [RR.val 0, RR.val 0]]
        (arange 0 2 1).length (arange 0 2 1).length ∧
    gridOk [[RR.val 0, RR.val 0], [RR.val 0, RR.val 0]]
        (arange 0 2 1).length (arange 0 2 1).length ∧
    gridOk [[RR.val 0, RR.val 0], [RR.val 0, RR.val 0]]
        (arange 0 2 1).length (arange 0 2 1).length ∧
    gridOk [[RR.val 0, RR.val 0], [RR.val 0, RR.val 0]]
        (arange 0 2 1).length (arange 0 2 1).length :=
  optimize_grid_shapes_no_nan env0 [0] (fun _ _ => [0]) 0 0 2 1 0 2 1
    [[RR.val 0, RR.val 0], [RR.val 0, RR.val 0]]
    [[RR.val 0, RR.val 0], [RR.val 0, RR.val 0]]
    [[RR.val 0, RR.val 0], [RR.val 0, RR.val 0]]
    [[RR.val 0, RR.val 0], [RR.val 0, RR.val 0]]
    rfl (by decide) (by decide)

end NanoViz
